import Mathlib

/-!
Shallow embedding of the dverse-identity library (src/lib.rs).

Byte strings are modelled as `List Nat` with every element below 256 (the
`u8` range); Rust `String` values are modelled as `List Char`.  Rust
`Result<T, IdentityError>` values are modelled by `Outcome T`, which has a
third constructor `panicked` recording an abort of the thread: the decode
path of `Did::to_public_key` slices `&decoded_bytes[0..2]` while building an
error message, and a Rust range slice aborts when the end index exceeds the
length, so the embedding must be able to express that outcome.

The external `multibase` / `bs58` crates are part of the decode path the
library delegates to.  Their base58btc codec (the only alphabet the library
ever encodes with) and the base16-lower codec are modelled concretely from
those crates' algorithms; the decoders of the remaining registered
alphabets are irrelevant to every statement below and are abstracted as an
explicit function argument `aux`, so all theorems hold for any behaviour of
those decoders.  The Ed25519 primitives of `ed25519_dalek` are external
collaborators (opaque per the specification) and are likewise passed as
function arguments.  Diagnostic message strings that Rust builds with
interpolated runtime data are elided from error payloads; statically fixed
messages are kept verbatim.
-/

/-- Error type of the `multibase` crate: an unregistered base indicator
character, or malformed text for the designated alphabet (all decode
failures of the individual alphabets collapse to `invalidBaseString`). -/
inductive MultibaseError where
  | unknownBase (c : Char)
  | invalidBaseString
  deriving DecidableEq

/-- The bases registered by the `multibase` crate (its `Base` enum). -/
inductive Base where
  | identity
  | base2
  | base8
  | base10
  | base16lower
  | base16upper
  | base32lower
  | base32upper
  | base32padlower
  | base32padupper
  | base32hexlower
  | base32hexupper
  | base32hexpadlower
  | base32hexpadupper
  | base32z
  | base36lower
  | base36upper
  | base58flickr
  | base58btc
  | base64
  | base64pad
  | base64url
  | base64urlpad
  deriving DecidableEq

/-- The `IdentityError` enum of src/lib.rs.  Variants whose Rust payload is
a message string built from runtime data carry no payload here; the
`arrayConversionError` messages are static in the source and kept verbatim,
and the payloads of `unsupportedMultibase` / `multibaseError` keep the
runtime data itself. -/
inductive IdentityError where
  | keyGenerationError
  | signatureError
  | invalidKey
  | invalidDidFormat
  | encodingError
  | decodingError
  | unsupportedMulticodec
  | unsupportedMultibase (base : Base)
  | dalekError
  | multibaseError (e : MultibaseError)
  | arrayConversionError (msg : String)
  deriving DecidableEq

/-- Outcome of running a Rust function returning `Result<α, IdentityError>`:
normal success, a returned error, or a panic (abort) of the thread. -/
inductive Outcome (α : Type) where
  | ok (a : α)
  | err (e : IdentityError)
  | panicked
  deriving DecidableEq

/-- `PrivateKey(Vec<u8>)`. -/
structure PrivateKey where
  bytes : List Nat
  deriving DecidableEq

/-- `PublicKey(Vec<u8>)`. -/
structure PublicKey where
  bytes : List Nat
  deriving DecidableEq

/-- `KeyPair { private_key, public_key }`. -/
structure KeyPair where
  private_key : PrivateKey
  public_key : PublicKey
  deriving DecidableEq

/-- `Did(String)`. -/
structure Did where
  s : List Char
  deriving DecidableEq

/-- Big-endian value of a digit string in the given base
(`digitsVal 256` is the big-endian integer value of a byte string). -/
def digitsVal (base : Nat) (ds : List Nat) : Nat :=
  ds.foldl (fun acc d => acc * base + d) 0

/-- Fuel-driven big-endian digit expansion, structurally recursive so that
the kernel can evaluate it on concrete inputs. -/
def beDigitsAux (base : Nat) : Nat → Nat → List Nat → List Nat
  | 0, _, acc => acc
  | fuel + 1, n, acc =>
    if n = 0 then acc else beDigitsAux base fuel (n / base) (n % base :: acc)

/-- Minimal big-endian digit string of `n` in the given base (empty for 0);
`n` itself is plenty as fuel because the argument at least halves each step. -/
def natToDigitsBE (base n : Nat) : List Nat :=
  beDigitsAux base n n []

/-- The Bitcoin base-58 alphabet used by the `bs58` crate. -/
def BASE58_ALPHABET : List Char :=
  "123456789ABCDEFGHJKLMNPQRSTUVWXYZabcdefghijkmnopqrstuvwxyz".toList

/-- Digit value 0–57 to its base-58 character. -/
def digitToChar58 (d : Nat) : Char :=
  BASE58_ALPHABET.getD d '1'

/-- Index of a character in an alphabet list, `none` if absent. -/
def alphaIdx (c : Char) : List Char → Option Nat
  | [] => none
  | a :: rest => if a == c then some 0 else (alphaIdx c rest).map (fun i => i + 1)

/-- Base-58 character to its digit value, `none` for characters outside the
alphabet (the `bs58` decoder rejects the whole input on such a character). -/
def char58ToDigit (c : Char) : Option Nat :=
  alphaIdx c BASE58_ALPHABET

/-- `bs58` encode: the whole input read as a big-endian integer is written
in base 58, and one `'1'` (the zero digit) is prepended per leading zero
byte of the input. -/
def b58encode (bs : List Nat) : List Char :=
  List.replicate (bs.takeWhile (fun b => b == 0)).length '1'
    ++ (natToDigitsBE 58 (digitsVal 256 bs)).map digitToChar58

/-- Digit-by-digit lookup of a base-58 string, failing on the first
character outside the alphabet (the error loop of the `bs58` decoder). -/
def decodeDigits : List Char → Option (List Nat)
  | [] => some []
  | c :: cs =>
    match char58ToDigit c, decodeDigits cs with
    | some d, some ds => some (d :: ds)
    | _, _ => none

/-- `bs58` decode: all digits contribute to one big-endian integer, which
is written out in base 256, and one zero byte is prepended per leading
`'1'` character of the input. -/
def b58decode (cs : List Char) : Option (List Nat) :=
  match decodeDigits cs with
  | none => none
  | some ds =>
      some (List.replicate (cs.takeWhile (fun c => c == '1')).length 0
        ++ natToDigitsBE 256 (digitsVal 58 ds))

/-- One lowercase hex character to its value (`data_encoding::HEXLOWER`
rejects uppercase). -/
def hexDigitLower (c : Char) : Option Nat :=
  if 48 ≤ c.toNat ∧ c.toNat ≤ 57 then some (c.toNat - 48)
  else if 97 ≤ c.toNat ∧ c.toNat ≤ 102 then some (c.toNat - 87)
  else none

/-- Base16-lower decode: hex character pairs, rejecting odd length and any
character outside `0-9a-f`. -/
def b16lowerDecode : List Char → Option (List Nat)
  | [] => some []
  | [_] => none
  | c1 :: c2 :: rest =>
    match hexDigitLower c1, hexDigitLower c2, b16lowerDecode rest with
    | some h, some l, some bs => some ((h * 16 + l) :: bs)
    | _, _, _ => none

/-- The indicator-character table of the `multibase` crate
(`Base::from_code`); every character outside the table is an
`unknownBase` error. -/
def baseFromCode (c : Char) : Option Base :=
  match c with
  | '\x00' => some .identity
  | '0' => some .base2
  | '7' => some .base8
  | '9' => some .base10
  | 'f' => some .base16lower
  | 'F' => some .base16upper
  | 'b' => some .base32lower
  | 'B' => some .base32upper
  | 'c' => some .base32padlower
  | 'C' => some .base32padupper
  | 'v' => some .base32hexlower
  | 'V' => some .base32hexupper
  | 't' => some .base32hexpadlower
  | 'T' => some .base32hexpadupper
  | 'h' => some .base32z
  | 'k' => some .base36lower
  | 'K' => some .base36upper
  | 'Z' => some .base58flickr
  | 'z' => some .base58btc
  | 'm' => some .base64
  | 'M' => some .base64pad
  | 'u' => some .base64url
  | 'U' => some .base64urlpad
  | _ => none

/-- Per-base decoder dispatch of the `multibase` crate.  The two alphabets
the development exercises are modelled concretely; every other registered
alphabet's decoder is the abstract argument `aux`, so the theorems below
hold whatever those decoders do. -/
def baseDecode (aux : Base → List Char → Except MultibaseError (List Nat)) :
    Base → List Char → Except MultibaseError (List Nat)
  | Base.base58btc, s =>
    match b58decode s with
    | none => .error .invalidBaseString
    | some bs => .ok bs
  | Base.base16lower, s =>
    match b16lowerDecode s with
    | none => .error .invalidBaseString
    | some bs => .ok bs
  | b, s => aux b s

/-- `multibase::decode`: split off the leading indicator character, look it
up in the table, and decode the remainder with the designated alphabet. -/
def multibaseDecode (aux : Base → List Char → Except MultibaseError (List Nat))
    (s : List Char) : Except MultibaseError (Base × List Nat) :=
  match s with
  | [] => .error .invalidBaseString
  | c :: rest =>
    match baseFromCode c with
    | none => .error (.unknownBase c)
    | some base =>
      match baseDecode aux base rest with
      | .error e => .error e
      | .ok bytes => .ok (base, bytes)

/-- `multibase::encode` specialised to `Base::Base58Btc`, the only base the
library ever encodes with: the indicator `'z'` followed by the base-58
text. -/
def multibaseEncode58btc (bs : List Nat) : List Char :=
  'z' :: b58encode bs

/-- Rust range slice `&l[lo..hi]`: defined exactly when `lo ≤ hi ≤ l.len()`,
a panic otherwise. -/
def sliceRange (l : List Nat) (lo hi : Nat) : Option (List Nat) :=
  if lo ≤ hi ∧ hi ≤ l.length then some ((l.drop lo).take (hi - lo)) else none

/-- `Did::MULTICODEC_ED25519_PUB = &[0xed, 0x01]`. -/
def MULTICODEC_ED25519_PUB : List Nat := [0xed, 0x01]

/-- `Did::DID_DVERSE_PREFIX = "did:dverse:"`. -/
def DID_DVERSE_PREFIX_CHARS : List Char := "did:dverse:".toList

/-- `Did::from_public_key`: multicodec tag, then public-key bytes, base58btc
multibase-encoded, behind the fixed method string.  The source returns
`Ok(...)` unconditionally (`multibase::encode` returns a plain `String`). -/
def Did.from_public_key (public_key : PublicKey) : Outcome Did :=
  .ok ⟨DID_DVERSE_PREFIX_CHARS
        ++ multibaseEncode58btc (MULTICODEC_ED25519_PUB ++ public_key.bytes)⟩

/-- `Did::to_public_key`.  The final `match` on `sliceRange` models the
`&decoded_bytes[0..2]` slice the source performs while formatting the
`UnsupportedMulticodec` message: when the decoded payload is shorter than
the tag this slice is out of range and the thread panics. -/
def Did.to_public_key (aux : Base → List Char → Except MultibaseError (List Nat))
    (d : Did) : Outcome PublicKey :=
  if !(DID_DVERSE_PREFIX_CHARS.isPrefixOf d.s) then
    .err .invalidDidFormat
  else
    match multibaseDecode aux (d.s.drop DID_DVERSE_PREFIX_CHARS.length) with
    | .error e => .err (.multibaseError e)
    | .ok (base, decoded_bytes) =>
      if base ≠ Base.base58btc then
        .err (.unsupportedMultibase base)
      else if decoded_bytes.length < MULTICODEC_ED25519_PUB.length ∨
          decoded_bytes.take MULTICODEC_ED25519_PUB.length ≠ MULTICODEC_ED25519_PUB then
        match sliceRange decoded_bytes 0 MULTICODEC_ED25519_PUB.length with
        | none => .panicked
        | some _ => .err .unsupportedMulticodec
      else
        .ok ⟨decoded_bytes.drop MULTICODEC_ED25519_PUB.length⟩

/-- `KeyPair::sign`.  `dalekSign` is the opaque Ed25519 signing primitive:
`SigningKey::from_bytes` on a 32-byte array is infallible, `sign` returns a
`Signature` that is 64 bytes by type, which the subtype records. -/
def KeyPair.sign
    (dalekSign : {l : List Nat // l.length = 32} → List Nat → {l : List Nat // l.length = 64})
    (kp : KeyPair) (message : List Nat) : Outcome (List Nat) :=
  if h : kp.private_key.bytes.length = 32 then
    .ok (dalekSign ⟨kp.private_key.bytes, h⟩ message).val
  else
    .err (.arrayConversionError "Private key bytes are not 32 bytes long")

/-- `KeyPair::verify`.  `fromBytesVK` models `VerifyingKey::from_bytes`
(which can reject a 32-byte string that is no valid curve point, surfaced
as `DalekError`), and `dalekVerify` the opaque verification primitive over
a parsed key and a 64-byte signature (`Signature::from_bytes` is
infallible). -/
def KeyPair.verify {VK : Type}
    (fromBytesVK : {l : List Nat // l.length = 32} → Option VK)
    (dalekVerify : VK → List Nat → {l : List Nat // l.length = 64} → Bool)
    (kp : KeyPair) (message signature : List Nat) : Outcome Unit :=
  if h : kp.public_key.bytes.length = 32 then
    match fromBytesVK ⟨kp.public_key.bytes, h⟩ with
    | none => .err .dalekError
    | some vk =>
      if hs : signature.length = 64 then
        if dalekVerify vk message ⟨signature, hs⟩ then .ok () else .err .dalekError
      else
        .err (.arrayConversionError "Signature bytes are not 64 bytes long")
  else
    .err (.arrayConversionError "Public key bytes are not 32 bytes long")

/-- A vacuous instantiation for the abstract alphabet decoders, used to
evaluate concrete inputs whose decode path never reaches them. -/
def auxFail : Base → List Char → Except MultibaseError (List Nat) :=
  fun _ _ => .error .invalidBaseString

/-- Discriminator: is this outcome an `unsupportedMultibase` error (for any
base)? -/
def isUnsupportedMultibaseErr : Outcome PublicKey → Bool
  | .err (.unsupportedMultibase _) => true
  | _ => false

lemma beDigitsAux_eq_digits (base : Nat) (hb : 2 ≤ base) :
    ∀ fuel n acc, n ≤ fuel →
      beDigitsAux base fuel n acc = (Nat.digits base n).reverse ++ acc := by
  intro fuel
  induction fuel with
  | zero =>
    intro n acc hn
    have : n = 0 := Nat.le_zero.mp hn
    subst this
    simp [beDigitsAux]
  | succ f ih =>
    intro n acc hn
    by_cases h : n = 0
    · subst h; simp [beDigitsAux]
    · have hpos : 0 < n := Nat.pos_of_ne_zero h
      have hdiv : n / base ≤ f := by
        have : n / base < n := Nat.div_lt_self hpos (by omega)
        omega
      rw [beDigitsAux, if_neg h, ih _ _ hdiv,
        Nat.digits_def' (by omega : 1 < base) hpos]
      simp

lemma natToDigitsBE_eq (base n : Nat) (hb : 2 ≤ base) :
    natToDigitsBE base n = (Nat.digits base n).reverse := by
  rw [natToDigitsBE, beDigitsAux_eq_digits base hb n n [] (Nat.le_refl n)]
  simp

lemma foldl_digitsVal (base : Nat) :
    ∀ (ds : List Nat) (a : Nat),
      ds.foldl (fun acc d => acc * base + d) a
        = a * base ^ ds.length + Nat.ofDigits base ds.reverse := by
  intro ds
  induction ds with
  | nil => intro a; simp [Nat.ofDigits]
  | cons d rest ih =>
    intro a
    rw [List.foldl_cons, ih, List.reverse_cons, Nat.ofDigits_append]
    simp [Nat.ofDigits, pow_succ]
    ring

lemma digitsVal_eq_ofDigits (base : Nat) (ds : List Nat) :
    digitsVal base ds = Nat.ofDigits base ds.reverse := by
  rw [digitsVal, foldl_digitsVal]
  simp

lemma digitsVal_natToDigitsBE (base n : Nat) (hb : 2 ≤ base) :
    digitsVal base (natToDigitsBE base n) = n := by
  rw [natToDigitsBE_eq base n hb, digitsVal_eq_ofDigits, List.reverse_reverse,
    Nat.ofDigits_digits]

lemma natToDigitsBE_digitsVal (base : Nat) (hb : 2 ≤ base) (ds : List Nat)
    (hlt : ∀ d ∈ ds, d < base) (hhead : ∀ d, ds.head? = some d → d ≠ 0) :
    natToDigitsBE base (digitsVal base ds) = ds := by
  rw [digitsVal_eq_ofDigits, natToDigitsBE_eq _ _ hb,
    Nat.digits_ofDigits base (by omega) ds.reverse
      (by intro l hl; exact hlt l (List.mem_reverse.mp hl))
      (by
        intro hne
        have h1 : ds.reverse.getLast? = some (ds.reverse.getLast hne) :=
          List.getLast?_eq_getLast ds.reverse hne
        rw [List.getLast?_reverse] at h1
        exact hhead _ h1),
    List.reverse_reverse]

lemma natToDigitsBE_lt (base n : Nat) (hb : 2 ≤ base) :
    ∀ d ∈ natToDigitsBE base n, d < base := by
  rw [natToDigitsBE_eq base n hb]
  intro d hd
  exact Nat.digits_lt_base (by omega) (List.mem_reverse.mp hd)

lemma natToDigitsBE_head_ne_zero (base n : Nat) (hb : 2 ≤ base) (hn : n ≠ 0) :
    ∀ d, (natToDigitsBE base n).head? = some d → d ≠ 0 := by
  intro d hd
  rw [natToDigitsBE_eq base n hb, List.head?_reverse] at hd
  have hne : Nat.digits base n ≠ [] := Nat.digits_ne_nil_iff_ne_zero.mpr hn
  rw [List.getLast?_eq_getLast _ hne] at hd
  have h2 : (Nat.digits base n).getLast hne ≠ 0 := Nat.getLast_digit_ne_zero base hn
  have h3 : (Nat.digits base n).getLast hne = d := by injection hd
  omega

lemma foldl_digitsVal_le (base : Nat) (hb : 1 ≤ base) :
    ∀ (ds : List Nat) (a : Nat), a ≤ ds.foldl (fun acc d => acc * base + d) a := by
  intro ds
  induction ds with
  | nil => intro a; simp
  | cons d rest ih =>
    intro a
    calc a ≤ a * base + d := by nlinarith
    _ ≤ _ := ih (a * base + d)

lemma digitsVal_cons_pos (base d : Nat) (rest : List Nat) (hb : 1 ≤ base)
    (hd : d ≠ 0) : 0 < digitsVal base (d :: rest) := by
  rw [digitsVal, List.foldl_cons]
  calc 0 < d := Nat.pos_of_ne_zero hd
  _ = 0 * base + d := by ring
  _ ≤ _ := foldl_digitsVal_le base hb rest (0 * base + d)

lemma char58ToDigit_digitToChar58 : ∀ d < 58, char58ToDigit (digitToChar58 d) = some d := by
  decide

lemma digitToChar58_ne_one : ∀ d < 58, d ≠ 0 → (digitToChar58 d == '1') = false := by
  decide

lemma decodeDigits_map_digitToChar58 (ds : List Nat) (h : ∀ d ∈ ds, d < 58) :
    decodeDigits (ds.map digitToChar58) = some ds := by
  induction ds with
  | nil => rfl
  | cons d t ih =>
    rw [List.map_cons, decodeDigits,
      char58ToDigit_digitToChar58 d (h d (List.mem_cons_self d t)),
      ih (fun x hx => h x (List.mem_cons_of_mem d hx))]

lemma b58_roundtrip_head_ne_zero (b : Nat) (rest : List Nat) (hb0 : b ≠ 0)
    (hlt : ∀ x ∈ b :: rest, x < 256) :
    b58decode (b58encode (b :: rest)) = some (b :: rest) := by
  have hN : 0 < digitsVal 256 (b :: rest) :=
    digitsVal_cons_pos 256 b rest (by omega) hb0
  set N := digitsVal 256 (b :: rest) with hNdef
  have hzero : ((b :: rest).takeWhile (fun x => x == 0)).length = 0 := by
    rw [List.takeWhile_cons]
    simp [hb0]
  have hds_lt : ∀ d ∈ natToDigitsBE 58 N, d < 58 := natToDigitsBE_lt 58 N (by omega)
  have hds_ne : natToDigitsBE 58 N ≠ [] := by
    rw [natToDigitsBE_eq 58 N (by omega)]
    simp [Nat.digits_ne_nil_iff_ne_zero]
    omega
  obtain ⟨d0, t, hdt⟩ := List.exists_cons_of_ne_nil hds_ne
  have hd0 : d0 ≠ 0 := by
    apply natToDigitsBE_head_ne_zero 58 N (by omega) (by omega)
    rw [hdt]; rfl
  have hd0lt : d0 < 58 := hds_lt d0 (by rw [hdt]; exact List.mem_cons_self d0 t)
  rw [b58encode, ← hNdef, hzero, List.replicate_zero, List.nil_append, hdt,
    b58decode, decodeDigits_map_digitToChar58 _ (by rw [← hdt]; exact hds_lt)]
  have hone : (((d0 :: t).map digitToChar58).takeWhile
      (fun c => c == '1')).length = 0 := by
    rw [List.map_cons, List.takeWhile_cons]
    simp [digitToChar58_ne_one d0 hd0lt hd0]
  rw [hone, List.replicate_zero]
  show some ([] ++ natToDigitsBE 256 (digitsVal 58 (d0 :: t))) = some (b :: rest)
  rw [List.nil_append, ← hdt, digitsVal_natToDigitsBE 58 N (by omega), hNdef,
    natToDigitsBE_digitsVal 256 (by omega) _ hlt
      (by intro d hd; rw [List.head?_cons] at hd; injection hd; omega)]

lemma isPrefixOf_append_self (p r : List Char) : p.isPrefixOf (p ++ r) = true := by
  induction p with
  | nil => simp [List.isPrefixOf]
  | cons a t ih => simp [List.isPrefixOf, ih]

lemma b58_roundtrip_tagged (bs : List Nat) (hlt : ∀ b ∈ bs, b < 256) :
    b58decode (b58encode (MULTICODEC_ED25519_PUB ++ bs))
      = some (MULTICODEC_ED25519_PUB ++ bs) := by
  have hshape : MULTICODEC_ED25519_PUB ++ bs = 0xed :: (0x01 :: bs) := rfl
  rw [hshape]
  apply b58_roundtrip_head_ne_zero 0xed (0x01 :: bs) (by omega)
  intro x hx
  rcases List.mem_cons.mp hx with h | hx
  · omega
  rcases List.mem_cons.mp hx with h | hx
  · omega
  · exact hlt x hx

lemma toPublicKey_encodes_ok (aux : Base → List Char → Except MultibaseError (List Nat))
    (pk : PublicKey) (hlt : ∀ b ∈ pk.bytes, b < 256) :
    Did.to_public_key aux
      ⟨DID_DVERSE_PREFIX_CHARS ++ multibaseEncode58btc (MULTICODEC_ED25519_PUB ++ pk.bytes)⟩
      = Outcome.ok pk := by
  have hdec := b58_roundtrip_tagged pk.bytes hlt
  rw [Did.to_public_key]
  simp only [isPrefixOf_append_self, Bool.not_true]
  rw [if_neg (by simp)]
  rw [List.drop_left' (by rfl : DID_DVERSE_PREFIX_CHARS.length = DID_DVERSE_PREFIX_CHARS.length)]
  rw [multibaseEncode58btc]
  show (match multibaseDecode aux ('z' :: b58encode (MULTICODEC_ED25519_PUB ++ pk.bytes)) with
    | .error e => Outcome.err (.multibaseError e)
    | .ok (base, decoded_bytes) =>
      if base ≠ Base.base58btc then
        .err (.unsupportedMultibase base)
      else if decoded_bytes.length < MULTICODEC_ED25519_PUB.length ∨
          decoded_bytes.take MULTICODEC_ED25519_PUB.length ≠ MULTICODEC_ED25519_PUB then
        match sliceRange decoded_bytes 0 MULTICODEC_ED25519_PUB.length with
        | none => Outcome.panicked
        | some _ => .err .unsupportedMulticodec
      else
        .ok ⟨decoded_bytes.drop MULTICODEC_ED25519_PUB.length⟩) = Outcome.ok pk
  have hmb : multibaseDecode aux ('z' :: b58encode (MULTICODEC_ED25519_PUB ++ pk.bytes))
      = .ok (Base.base58btc, MULTICODEC_ED25519_PUB ++ pk.bytes) := by
    rw [multibaseDecode]
    show (match baseDecode aux Base.base58btc (b58encode (MULTICODEC_ED25519_PUB ++ pk.bytes)) with
      | .error e => Except.error e
      | .ok bytes => Except.ok (Base.base58btc, bytes))
      = Except.ok (Base.base58btc, MULTICODEC_ED25519_PUB ++ pk.bytes)
    rw [baseDecode, hdec]
  rw [hmb]
  show (if Base.base58btc ≠ Base.base58btc then
      Outcome.err (.unsupportedMultibase Base.base58btc)
    else if (MULTICODEC_ED25519_PUB ++ pk.bytes).length < MULTICODEC_ED25519_PUB.length ∨
        (MULTICODEC_ED25519_PUB ++ pk.bytes).take MULTICODEC_ED25519_PUB.length ≠ MULTICODEC_ED25519_PUB then
      match sliceRange (MULTICODEC_ED25519_PUB ++ pk.bytes) 0 MULTICODEC_ED25519_PUB.length with
      | none => Outcome.panicked
      | some _ => Outcome.err .unsupportedMulticodec
    else
      Outcome.ok ⟨(MULTICODEC_ED25519_PUB ++ pk.bytes).drop MULTICODEC_ED25519_PUB.length⟩)
    = Outcome.ok pk
  rw [if_neg (by simp)]
  rw [if_neg (by
    push_neg
    exact ⟨by simp [MULTICODEC_ED25519_PUB], rfl⟩)]
  rw [List.drop_left' (by rfl : MULTICODEC_ED25519_PUB.length = (MULTICODEC_ED25519_PUB : List Nat).length)]

lemma multibaseDecode_cons_ok (aux : Base → List Char → Except MultibaseError (List Nat))
    (c : Char) (base : Base) (rest : List Char) (bs : List Nat)
    (hc : baseFromCode c = some base) (hd : baseDecode aux base rest = .ok bs) :
    multibaseDecode aux (c :: rest) = .ok (base, bs) := by
  rw [multibaseDecode]
  show (match baseFromCode c with
    | none => Except.error (.unknownBase c)
    | some base =>
      match baseDecode aux base rest with
      | .error e => Except.error e
      | .ok bytes => Except.ok (base, bytes)) = Except.ok (base, bs)
  rw [hc]
  show (match baseDecode aux base rest with
    | .error e => Except.error e
    | .ok bytes => Except.ok (base, bytes)) = Except.ok (base, bs)
  rw [hd]

lemma toPublicKey_z (aux : Base → List Char → Except MultibaseError (List Nat))
    (s : List Char) (payload : List Nat) (hdec : b58decode s = some payload) :
    Did.to_public_key aux ⟨DID_DVERSE_PREFIX_CHARS ++ 'z' :: s⟩
      = if payload.length < MULTICODEC_ED25519_PUB.length ∨
            payload.take MULTICODEC_ED25519_PUB.length ≠ MULTICODEC_ED25519_PUB then
          match sliceRange payload 0 MULTICODEC_ED25519_PUB.length with
          | none => Outcome.panicked
          | some _ => Outcome.err .unsupportedMulticodec
        else Outcome.ok ⟨payload.drop MULTICODEC_ED25519_PUB.length⟩ := by
  have hbd : baseDecode aux Base.base58btc s = .ok payload := by
    rw [baseDecode, hdec]
  rw [Did.to_public_key]
  simp only [isPrefixOf_append_self, Bool.not_true]
  rw [if_neg (by simp)]
  rw [List.drop_left' (by rfl : DID_DVERSE_PREFIX_CHARS.length = DID_DVERSE_PREFIX_CHARS.length)]
  rw [multibaseDecode_cons_ok aux 'z' Base.base58btc s payload rfl hbd]
  show (if Base.base58btc ≠ Base.base58btc then
      Outcome.err (.unsupportedMultibase Base.base58btc)
    else if payload.length < MULTICODEC_ED25519_PUB.length ∨
        payload.take MULTICODEC_ED25519_PUB.length ≠ MULTICODEC_ED25519_PUB then
      match sliceRange payload 0 MULTICODEC_ED25519_PUB.length with
      | none => Outcome.panicked
      | some _ => Outcome.err .unsupportedMulticodec
    else
      Outcome.ok (⟨payload.drop MULTICODEC_ED25519_PUB.length⟩ : PublicKey)) = _
  rw [if_neg (by simp)]

/-- Claim C1: for every 32-byte public key P (each byte in the u8 range),
decoding the DID produced from it returns exactly P: `Did::from_public_key`
succeeds with a Did whose `Did::to_public_key` succeeds and yields a
PublicKey byte-wise equal to P, for any behaviour of the abstracted
alphabet decoders. -/
theorem did_roundtrip_32byte (aux : Base → List Char → Except MultibaseError (List Nat))
    (pk : PublicKey) (_h32 : pk.bytes.length = 32) (hu8 : ∀ b ∈ pk.bytes, b < 256) :
    ∃ d, Did.from_public_key pk = Outcome.ok d
      ∧ Did.to_public_key aux d = Outcome.ok pk :=
  ⟨_, rfl, toPublicKey_encodes_ok aux pk hu8⟩

/-- Witness for C1 at the 32-byte key consisting of the byte 7 repeated. -/
theorem did_roundtrip_32byte_witness :
    (PublicKey.mk (List.replicate 32 7)).bytes.length = 32
    ∧ (∀ b ∈ (PublicKey.mk (List.replicate 32 7)).bytes, b < 256)
    ∧ ∃ d, Did.from_public_key (PublicKey.mk (List.replicate 32 7)) = Outcome.ok d
        ∧ Did.to_public_key auxFail d = Outcome.ok (PublicKey.mk (List.replicate 32 7)) :=
  ⟨by decide, by decide, did_roundtrip_32byte auxFail _ (by decide) (by decide)⟩

/-- Claim C2 (code bug in the source): on the DID "did:dverse:z", whose
remainder is valid multibase text decoding to the empty payload, the claim
says `to_public_key` returns the unsupported-multicodec error without
panicking; in fact, while formatting that error's message the source
slices `&decoded_bytes[0..2]` with an end index beyond the payload length,
so the thread panics instead of returning the error. -/
theorem toPublicKey_short_payload_panics
    (aux : Base → List Char → Except MultibaseError (List Nat)) :
    Did.to_public_key aux ⟨"did:dverse:z".toList⟩ = Outcome.panicked := rfl

/-- Claim C3 counterexample: the indicator 'x' designates no alphabet the
multibase layer recognizes, so "did:dverse:xABC" fails with the wrapped
multibase error (the crate's unknown-base error), not with the
unsupported-multibase error the claim names. -/
theorem toPublicKey_unknown_indicator_not_unsupported :
    Did.to_public_key auxFail ⟨"did:dverse:xABC".toList⟩
      = Outcome.err (.multibaseError (.unknownBase 'x'))
    ∧ isUnsupportedMultibaseErr
        (Did.to_public_key auxFail ⟨"did:dverse:xABC".toList⟩) = false :=
  ⟨rfl, rfl⟩

/-- Claim C3 as amended: for every Did with the correct method string whose
encoded part begins with an indicator that the multibase table maps to an
alphabet other than base58btc and whose remainder that alphabet's decoder
accepts, `to_public_key` fails with the unsupported-multibase error; an
indicator outside the table (such as 'x') instead fails with the wrapped
multibase decoding error. -/
theorem toPublicKey_recognized_other_base
    (aux : Base → List Char → Except MultibaseError (List Nat))
    (c : Char) (base : Base) (rest : List Char) (bs : List Nat)
    (hc : baseFromCode c = some base) (hbase : base ≠ Base.base58btc)
    (hd : baseDecode aux base rest = .ok bs) :
    Did.to_public_key aux ⟨DID_DVERSE_PREFIX_CHARS ++ c :: rest⟩
      = Outcome.err (.unsupportedMultibase base) := by
  rw [Did.to_public_key]
  simp only [isPrefixOf_append_self, Bool.not_true]
  rw [if_neg (by simp)]
  rw [List.drop_left' (by rfl : DID_DVERSE_PREFIX_CHARS.length = DID_DVERSE_PREFIX_CHARS.length)]
  rw [multibaseDecode_cons_ok aux c base rest bs hc hd]
  show (if base ≠ Base.base58btc then
      Outcome.err (.unsupportedMultibase base)
    else if bs.length < MULTICODEC_ED25519_PUB.length ∨
        bs.take MULTICODEC_ED25519_PUB.length ≠ MULTICODEC_ED25519_PUB then
      match sliceRange bs 0 MULTICODEC_ED25519_PUB.length with
      | none => Outcome.panicked
      | some _ => Outcome.err .unsupportedMulticodec
    else
      Outcome.ok (⟨bs.drop MULTICODEC_ED25519_PUB.length⟩ : PublicKey)) = _
  rw [if_pos hbase]

/-- Witness for the amended C3 at "did:dverse:f00": indicator 'f' is
base16-lower, whose decoder accepts "00". -/
theorem toPublicKey_recognized_other_base_witness :
    baseFromCode 'f' = some Base.base16lower
    ∧ Base.base16lower ≠ Base.base58btc
    ∧ baseDecode auxFail Base.base16lower "00".toList = .ok [0]
    ∧ Did.to_public_key auxFail ⟨DID_DVERSE_PREFIX_CHARS ++ 'f' :: "00".toList⟩
        = Outcome.err (.unsupportedMultibase Base.base16lower) :=
  ⟨rfl, by decide, rfl,
    toPublicKey_recognized_other_base auxFail 'f' Base.base16lower "00".toList [0]
      rfl (by decide) rfl⟩

/-- Claim C4: for every Did with the correct method string whose payload
base58btc-decodes to the 2-byte tag 0xED 0x01 followed by any N further
bytes, `to_public_key` succeeds and returns exactly those N bytes; no check
that the remainder is 32 bytes long is performed. -/
theorem toPublicKey_returns_all_bytes_after_tag
    (aux : Base → List Char → Except MultibaseError (List Nat))
    (s : List Char) (rest : List Nat)
    (hdec : b58decode s = some (MULTICODEC_ED25519_PUB ++ rest)) :
    Did.to_public_key aux ⟨DID_DVERSE_PREFIX_CHARS ++ 'z' :: s⟩
      = Outcome.ok ⟨rest⟩ := by
  rw [toPublicKey_z aux s (MULTICODEC_ED25519_PUB ++ rest) hdec]
  rw [if_neg (by
    push_neg
    exact ⟨by simp [MULTICODEC_ED25519_PUB], rfl⟩)]
  rw [List.drop_left' (by rfl : (MULTICODEC_ED25519_PUB : List Nat).length = MULTICODEC_ED25519_PUB.length)]

/-- Witness for C4: an encoded payload whose remainder after the tag is the
single byte 42 (N = 1, not 32) is accepted and returned whole. -/
theorem toPublicKey_returns_all_bytes_after_tag_witness :
    b58decode (b58encode (MULTICODEC_ED25519_PUB ++ [42]))
      = some (MULTICODEC_ED25519_PUB ++ [42])
    ∧ Did.to_public_key auxFail
        ⟨DID_DVERSE_PREFIX_CHARS ++ 'z' :: b58encode (MULTICODEC_ED25519_PUB ++ [42])⟩
      = Outcome.ok ⟨[42]⟩ :=
  ⟨by decide,
    toPublicKey_returns_all_bytes_after_tag auxFail
      (b58encode (MULTICODEC_ED25519_PUB ++ [42])) [42] (by decide)⟩

/-- Claim C5: for every Did string that does not start with the exact
method string "did:dverse:", `to_public_key` fails with the invalid-DID-
format error; the result is this error whatever the rest of the string
holds (in particular for strings whose remainder could not be multibase-
decoded at all), which is the observable content of the check running
before any decoding. -/
theorem toPublicKey_wrong_method_string
    (aux : Base → List Char → Except MultibaseError (List Nat)) (s : List Char)
    (h : DID_DVERSE_PREFIX_CHARS.isPrefixOf s = false) :
    Did.to_public_key aux ⟨s⟩ = Outcome.err .invalidDidFormat := by
  rw [Did.to_public_key]
  simp [h]

/-- Witness for C5 at "not:a:did:key" (one of the spec's own examples). -/
theorem toPublicKey_wrong_method_string_witness :
    DID_DVERSE_PREFIX_CHARS.isPrefixOf "not:a:did:key".toList = false
    ∧ Did.to_public_key auxFail ⟨"not:a:did:key".toList⟩
        = Outcome.err .invalidDidFormat :=
  ⟨by decide, toPublicKey_wrong_method_string auxFail "not:a:did:key".toList (by decide)⟩

/-- Claim C6: for every Did with the correct method string whose payload is
valid base58btc text decoding to at least 2 bytes whose first two bytes are
not the tag 0xED 0x01, `to_public_key` fails with the unsupported-
multicodec error (the diagnostic slice is in range, so no panic occurs). -/
theorem toPublicKey_wrong_tag
    (aux : Base → List Char → Except MultibaseError (List Nat))
    (s : List Char) (payload : List Nat)
    (hdec : b58decode s = some payload) (hlen : 2 ≤ payload.length)
    (htag : payload.take 2 ≠ MULTICODEC_ED25519_PUB) :
    Did.to_public_key aux ⟨DID_DVERSE_PREFIX_CHARS ++ 'z' :: s⟩
      = Outcome.err .unsupportedMulticodec := by
  rw [toPublicKey_z aux s payload hdec]
  have htag2 : payload.take MULTICODEC_ED25519_PUB.length ≠ MULTICODEC_ED25519_PUB := htag
  rw [if_pos (Or.inr htag2)]
  have hs : sliceRange payload 0 MULTICODEC_ED25519_PUB.length
      = some ((payload.drop 0).take (MULTICODEC_ED25519_PUB.length - 0)) := by
    rw [sliceRange, if_pos ⟨by omega, by simpa using hlen⟩]
  rw [hs]

/-- Witness for C6 at payload "11", which decodes to the two zero bytes
0x00 0x00 (not the tag). -/
theorem toPublicKey_wrong_tag_witness :
    b58decode "11".toList = some [0, 0]
    ∧ 2 ≤ ([0, 0] : List Nat).length
    ∧ ([0, 0] : List Nat).take 2 ≠ MULTICODEC_ED25519_PUB
    ∧ Did.to_public_key auxFail ⟨DID_DVERSE_PREFIX_CHARS ++ 'z' :: "11".toList⟩
        = Outcome.err .unsupportedMulticodec :=
  ⟨by decide, by decide, by decide,
    toPublicKey_wrong_tag auxFail "11".toList [0, 0] (by decide) (by decide) (by decide)⟩

/-- Claim C7: for every KeyPair whose held 32-byte public key the Ed25519
layer accepts (as keys produced by generate() are) and every message, a
signature whose length is not 64 bytes makes `KeyPair::verify` fail with
the invalid-signature-length condition (the source's ArrayConversionError
with the signature message); the result is this error for every possible
behaviour of the verification primitive `dalekVerify`, i.e. before that
primitive is consulted. -/
theorem verify_rejects_bad_sig_length {VK : Type}
    (fromBytesVK : {l : List Nat // l.length = 32} → Option VK)
    (dalekVerify : VK → List Nat → {l : List Nat // l.length = 64} → Bool)
    (kp : KeyPair) (message signature : List Nat) (vk : VK)
    (h32 : kp.public_key.bytes.length = 32)
    (hvk : fromBytesVK ⟨kp.public_key.bytes, h32⟩ = some vk)
    (hsig : signature.length ≠ 64) :
    KeyPair.verify fromBytesVK dalekVerify kp message signature
      = Outcome.err (.arrayConversionError "Signature bytes are not 64 bytes long") := by
  rw [KeyPair.verify, dif_pos h32, hvk]
  show (if hs : signature.length = 64 then
      if dalekVerify vk message ⟨signature, hs⟩ then Outcome.ok () else Outcome.err .dalekError
    else Outcome.err (.arrayConversionError "Signature bytes are not 64 bytes long")) = _
  rw [dif_neg hsig]

/-- Witness for C7: a unit verifying-key type accepting every 32-byte key,
a 32-byte public key, and a 3-byte signature. -/
theorem verify_rejects_bad_sig_length_witness :
    (KeyPair.mk (PrivateKey.mk []) (PublicKey.mk (List.replicate 32 0))).public_key.bytes.length = 32
    ∧ ([1, 2, 3] : List Nat).length ≠ 64
    ∧ KeyPair.verify (fun _ => some ()) (fun _ _ _ => true)
        (KeyPair.mk (PrivateKey.mk []) (PublicKey.mk (List.replicate 32 0))) [] [1, 2, 3]
      = Outcome.err (.arrayConversionError "Signature bytes are not 64 bytes long") :=
  ⟨by decide, by decide,
    verify_rejects_bad_sig_length (fun _ => some ()) (fun _ _ _ => true)
      (KeyPair.mk (PrivateKey.mk []) (PublicKey.mk (List.replicate 32 0))) [] [1, 2, 3] ()
      (by decide) rfl (by decide)⟩

/-- Claim C8: for every signing primitive, KeyPair and message,
`KeyPair::sign` fails with the invalid-key condition (the source's
ArrayConversionError with the private-key message) exactly when the held
private key is not 32 bytes, and with a 32-byte private key it succeeds
and the signature is exactly 64 bytes (the length the Ed25519 signature
type guarantees). -/
theorem sign_invalid_key_iff
    (dalekSign : {l : List Nat // l.length = 32} → List Nat → {l : List Nat // l.length = 64})
    (kp : KeyPair) (message : List Nat) :
    (KeyPair.sign dalekSign kp message
        = Outcome.err (.arrayConversionError "Private key bytes are not 32 bytes long")
      ↔ kp.private_key.bytes.length ≠ 32)
    ∧ (kp.private_key.bytes.length = 32 →
        ∃ sg, KeyPair.sign dalekSign kp message = Outcome.ok sg ∧ sg.length = 64) := by
  constructor
  · constructor
    · intro h hlen
      rw [KeyPair.sign, dif_pos hlen] at h
      exact Outcome.noConfusion h
    · intro hlen
      rw [KeyPair.sign, dif_neg hlen]
  · intro hlen
    refine ⟨(dalekSign ⟨kp.private_key.bytes, hlen⟩ message).val, ?_, ?_⟩
    · rw [KeyPair.sign, dif_pos hlen]
    · exact (dalekSign ⟨kp.private_key.bytes, hlen⟩ message).property

/-- Witness for C8: a constant 64-byte signing primitive, a 32-byte private
key (sign succeeds with 64 bytes) and, through the same theorem, an empty
private key (sign fails with the invalid-key condition). -/
theorem sign_invalid_key_iff_witness :
    (KeyPair.sign (fun _ _ => ⟨List.replicate 64 0, List.length_replicate 64 0⟩)
        (KeyPair.mk (PrivateKey.mk (List.replicate 32 0)) (PublicKey.mk [])) []
        = Outcome.err (.arrayConversionError "Private key bytes are not 32 bytes long")
      ↔ (KeyPair.mk (PrivateKey.mk (List.replicate 32 0)) (PublicKey.mk [])).private_key.bytes.length ≠ 32)
    ∧ ((KeyPair.mk (PrivateKey.mk (List.replicate 32 0)) (PublicKey.mk [])).private_key.bytes.length = 32 →
        ∃ sg, KeyPair.sign (fun _ _ => ⟨List.replicate 64 0, List.length_replicate 64 0⟩)
            (KeyPair.mk (PrivateKey.mk (List.replicate 32 0)) (PublicKey.mk [])) []
          = Outcome.ok sg ∧ sg.length = 64) :=
  sign_invalid_key_iff (fun _ _ => ⟨List.replicate 64 0, List.length_replicate 64 0⟩)
    (KeyPair.mk (PrivateKey.mk (List.replicate 32 0)) (PublicKey.mk [])) []

/-- Claim C9: `Did::from_public_key` is total and deterministic: on every
public key it returns Ok (never an error), and byte-wise equal keys give
identical results. -/
theorem from_public_key_total_deterministic (pk : PublicKey) :
    (∃ d, Did.from_public_key pk = Outcome.ok d)
    ∧ (∀ pk2 : PublicKey, pk.bytes = pk2.bytes →
        Did.from_public_key pk = Did.from_public_key pk2) := by
  refine ⟨⟨_, rfl⟩, ?_⟩
  intro pk2 h
  rw [Did.from_public_key, Did.from_public_key, h]

/-- Witness for C9 at the one-byte key 5. -/
theorem from_public_key_total_deterministic_witness :
    (∃ d, Did.from_public_key (PublicKey.mk [5]) = Outcome.ok d)
    ∧ (∀ pk2 : PublicKey, (PublicKey.mk [5]).bytes = pk2.bytes →
        Did.from_public_key (PublicKey.mk [5]) = Did.from_public_key pk2) :=
  from_public_key_total_deterministic (PublicKey.mk [5])

/-- Claim C10: `Did::from_public_key` accepts a PublicKey of any byte
length, and the round trip preserves it: for every byte string B (each
byte in the u8 range, any length including lengths other than 32),
from_public_key succeeds and to_public_key on the produced Did returns
exactly B. -/
theorem did_roundtrip_any_length (aux : Base → List Char → Except MultibaseError (List Nat))
    (pk : PublicKey) (hu8 : ∀ b ∈ pk.bytes, b < 256) :
    ∃ d, Did.from_public_key pk = Outcome.ok d
      ∧ Did.to_public_key aux d = Outcome.ok pk :=
  ⟨_, rfl, toPublicKey_encodes_ok aux pk hu8⟩

/-- Witness for C10 at the empty byte string (length 0, not 32). -/
theorem did_roundtrip_any_length_witness :
    (∀ b ∈ (PublicKey.mk ([] : List Nat)).bytes, b < 256)
    ∧ ∃ d, Did.from_public_key (PublicKey.mk ([] : List Nat)) = Outcome.ok d
        ∧ Did.to_public_key auxFail d = Outcome.ok (PublicKey.mk ([] : List Nat)) :=
  ⟨by decide, did_roundtrip_any_length auxFail (PublicKey.mk []) (by decide)⟩
